import Mathlib

/-!
# Verification of the swaytools workspace/output reconciliation engine

Shallow embedding of the `swaytools` repository (`src/lib.rs`,
`src/bin/ws.rs`, `src/bin/workspaces-to-outputs.rs`) in Lean 4, together
with theorems settling the specification claims about it.

Conventions:
* Rust `i32` values are modelled as `Int` (with explicit i32 range checks
  where the source can fail on overflow, i.e. in string parsing).
* Rust `HashMap<String, Vec<i32>>` is modelled as an association list
  `List (String × List Int)` with `HashMap::insert` semantics
  (`insertMapping`); iteration order of association lists stands in for
  the map's iteration order.
* Fallible Rust functions returning `Result<T, Error>` become
  `Except Error T`; functions that issue compositor commands return the
  ordered list of issued commands.
-/

namespace Swaytools

/-- A workspace as returned by `get_workspaces` (swayipc `Workspace`):
`num: i32`, `name: String`, `output: String`, `focused: bool`. -/
structure Workspace where
  num : Int
  name : String
  output : String
  focused : Bool
deriving DecidableEq, Repr

/-- An output as returned by `get_outputs` (swayipc `Output`):
`name`, `make`, `model`, `serial`, `focused`. -/
structure Output where
  name : String
  make : String
  model : String
  serial : String
  focused : Bool
deriving DecidableEq, Repr

/-- The error enum of `src/bin/ws.rs` (`Error`); the Io/SerdeJson/Sway
transparent wrappers are collapsed to carrier constructors. -/
inductive Error where
  | Io
  | SerdeJson
  | Sway
  | NoFocusedWorkspace
  | NoWorkspaces
  | NoFocusedOutput
  | NoOutputs
  | NeitherNumNorNameProvided
  | MarkNotFound
  | UnexpectedTree
deriving DecidableEq, Repr

/-- The output→workspace-numbers mapping (`HashMap<String, Vec<i32>>`),
as an association list. -/
abbrev Mapping := List (String × List Int)

/-- Rust `HashMap::get`: first binding of the key, if any. -/
def lookupMapping (m : Mapping) (key : String) : Option (List Int) :=
  (m.find? (fun p => p.1 == key)).map (·.2)

/-- Rust `HashMap::insert`: replace the binding of `key` if present, else append. -/
def insertMapping (m : Mapping) (key : String) (value : List Int) : Mapping :=
  if m.any (fun p => p.1 == key) then
    m.map (fun p => if p.1 == key then (key, value) else p)
  else
    m ++ [(key, value)]

/-! ## `map_validator` (src/bin/ws.rs lines 66–94)

Parses one `output:spec` token into `(output, sorted deduplicated numbers)`.
-/

/-- Rust `str::split_once(c)`: split at the first occurrence of `c`,
returning the parts before and after it. -/
def splitOnceAux (c : Char) : List Char → Option (List Char × List Char)
  | [] => none
  | x :: xs =>
    if x = c then some ([], xs)
    else (splitOnceAux c xs).map (fun p => (x :: p.1, p.2))

/-- Rust `str::split_once` on strings. -/
def splitOnce (s : String) (c : Char) : Option (String × String) :=
  (splitOnceAux c s.data).map (fun p => (String.mk p.1, String.mk p.2))

/-- Rust `str::split(c)` on a character list: split at every occurrence of
`c`; an empty input yields one empty part, like Rust's `split`. -/
def splitCharAux (c : Char) : List Char → List Char → List (List Char)
  | [], acc => [acc.reverse]
  | x :: xs, acc =>
    if x = c then acc.reverse :: splitCharAux c xs []
    else splitCharAux c xs (x :: acc)

/-- Rust `str::split(c)` on strings. -/
def splitChar (s : String) (c : Char) : List String :=
  (splitCharAux c s.data []).map String.mk

/-- Value of a list of decimal digit characters. -/
def digitsToNat (l : List Char) : Nat :=
  l.foldl (fun acc c => acc * 10 + (c.toNat - 48)) 0

/-- Rust `str::parse::<i32>()`: optional sign, one or more ASCII digits,
result must fit in `i32`. -/
def parseI32 (s : String) : Option Int :=
  match s.data with
  | [] => none
  | c :: rest =>
    let (sign, digits) : Int × List Char :=
      if c = '-' then (-1, rest)
      else if c = '+' then (1, rest)
      else (1, c :: rest)
    if digits = [] then none
    else if digits.all Char.isDigit then
      let v : Int := sign * (digitsToNat digits : Int)
      if -(2 ^ 31) ≤ v ∧ v ≤ 2 ^ 31 - 1 then some v else none
    else none

/-- The inclusive ascending range `lo..=hi` as a list. -/
def rangeList (lo hi : Int) : List Int :=
  (List.range (hi + 1 - lo).toNat).map (fun i => lo + (i : Int))

/-- One iteration of `map_validator`'s part loop: parse one
comma-separated part (a single integer or an `a-b` range) into the
numbers it contributes. -/
def parsePart (part : String) : Except String (List Int) :=
  if part.data.contains '-' then
    match splitOnce part '-' with
    | none => .error "cannot split on '-' after ensuring '-' is in string"
    | some (l, r) =>
      match parseI32 l with
      | none => .error ("'" ++ l ++ "' - invalid digit found in string")
      | some left =>
        match parseI32 r with
        | none => .error ("'" ++ r ++ "' - invalid digit found in string")
        | some right =>
          let p := if left ≤ right then (left, right) else (right, left)
          .ok (rangeList p.1 p.2)
  else
    match parseI32 part with
    | none => .error ("'" ++ part ++ "' - invalid digit found in string")
    | some num => .ok [num]

/-- Rust `Vec::dedup`: remove consecutive repeated elements. -/
def dedup : List Int → List Int
  | [] => []
  | [a] => [a]
  | a :: b :: rest => if a = b then dedup (b :: rest) else a :: dedup (b :: rest)

/-- The accumulation loop of `map_validator`: concatenate the numbers
contributed by each part, stopping at the first parse error. -/
def collectParts (parts : List String) : Except String (List Int) :=
  parts.foldlM (fun acc part => do
    let nums ← parsePart part
    pure (acc ++ nums)) []

/-- Rust `map_validator` (src/bin/ws.rs 66–94): split the token at the first
colon, parse each comma-separated part (integer or inclusive range with
endpoints in either order), then sort and deduplicate. -/
def mapValidator (string : String) : Except String (String × List Int) :=
  match splitOnce string ':' with
  | none => .error "must contain colon as separator"
  | some (output, workspaceStr) =>
    match collectParts (splitChar workspaceStr ',') with
    | .error e => .error e
    | .ok workspaces => .ok (output, dedup (workspaces.insertionSort (· ≤ ·)))

/-! ## Compositor commands (the `Connection` impl, src/bin/ws.rs 444–546)

Each `Connection` method performs one `run(payload)`; we reify the
commands as an inductive type, with `payload` reproducing the exact
format strings of the source. -/

/-- One compositor command, one constructor per distinct `run` payload
shape in the `Connection` impl. -/
inductive Cmd where
  | workspaceNumName (num : Int) (name : String)
  | workspaceNum (num : Int)
  | workspaceName (name : String)
  | moveToWorkspaceNumName (num : Int) (name : String)
  | moveToWorkspaceNum (num : Int)
  | moveToWorkspaceName (name : String)
  | moveWorkspaceToOutput (output : String)
  | focusOutput (name : String)
  | markAdd (mark : String)
deriving DecidableEq, Repr

/-- The payload string `run` receives for each command, reproducing the
`format!` strings of the source. -/
def Cmd.payload : Cmd → String
  | .workspaceNumName num name => s!"workspace number {num}:{name}"
  | .workspaceNum num => s!"workspace number {num}"
  | .workspaceName name => s!"workspace {name}"
  | .moveToWorkspaceNumName num name => s!"move to workspace number {num}:{name}"
  | .moveToWorkspaceNum num => s!"move to workspace number {num}"
  | .moveToWorkspaceName name => s!"move to workspace {name}"
  | .moveWorkspaceToOutput output => s!"move workspace to output {output}"
  | .focusOutput name => s!"focus output {name}"
  | .markAdd mark => s!"mark --add {mark}"

namespace Connection

/-- Rust `Connection::workspace` (ws.rs 462–475): dispatch on which of
`num`/`name` are present; with neither, fail with
`NeitherNumNorNameProvided` before any command is issued. -/
def workspace (num : Option Int) (name : Option String) : Except Error Cmd :=
  match num with
  | some num =>
    match name with
    | some name => .ok (.workspaceNumName num name)
    | none => .ok (.workspaceNum num)
  | none =>
    match name with
    | some name => .ok (.workspaceName name)
    | none => .error .NeitherNumNorNameProvided

/-- Rust `Connection::move_to_workspace` (ws.rs 485–497): same dispatch for
the `move to workspace` family. -/
def move_to_workspace (num : Option Int) (name : Option String) : Except Error Cmd :=
  match num with
  | some num =>
    match name with
    | some name => .ok (.moveToWorkspaceNumName num name)
    | none => .ok (.moveToWorkspaceNum num)
  | none =>
    match name with
    | some name => .ok (.moveToWorkspaceName name)
    | none => .error .NeitherNumNorNameProvided

end Connection

/-! ## `Sway` snapshot accessors (src/bin/ws.rs 589–674) -/

/-- Rust `Sway::workspace_by_num_or_name` (ws.rs 599–609): first workspace
whose name equals the requested name or whose number equals the
requested number. -/
def workspace_by_num_or_name (wss : List Workspace) (num : Option Int)
    (name : Option String) : Option Workspace :=
  wss.find? (fun ws =>
    (match name with | some name => name == ws.name | none => false) ||
    (match num with | some num => num == ws.num | none => false))

/-- Rust `Sway::focused_workspace` (ws.rs 615–617): first workspace with
`focused` set. -/
def focused_workspace (wss : List Workspace) : Option Workspace :=
  wss.find? (·.focused)

/-- Rust `Sway::focused_output` (ws.rs 656–658): first output with `focused`
set. -/
def focused_output (outs : List Output) : Option Output :=
  outs.find? (·.focused)

/-- Rust `Sway::output_by_name_or_identifier` (ws.rs 637–650): first output
matched by name or by its `make model serial` descriptor. -/
def output_by_name_or_identifier (outs : List Output) (name : Option String)
    (identifier : Option String) : Option Output :=
  outs.find? (fun o =>
    (match name with | some name => name == o.name | none => false) ||
    (match identifier with
     | some identifier => identifier == o.make ++ " " ++ o.model ++ " " ++ o.serial
     | none => false))

/-! ## Focus operation (`ws_focus`, src/bin/ws.rs 124–183) -/

/-- Arguments of the `focus` subcommand (clap guarantees at least one of
`number`/`name` is present). -/
structure FocusArgs where
  no_auto_back_and_forth : Bool
  number : Option Int
  name : Option String
deriving Repr

/-- Rust `ws_focus` (ws.rs 124–183), as a function from the workspace
snapshot, output snapshot and loaded mapping to the ordered list of
issued commands. The snapshot/mapping queries are modelled as already
performed; clap's arg group guarantees `name` is present whenever
`number` is absent, so the `args.name.unwrap()` of line 145 is modelled
with `Option.getD`. -/
def ws_focus (wss : List Workspace) (outs : List Output) (mapping : Mapping)
    (args : FocusArgs) : Except Error (List Cmd) := do
  let target := workspace_by_num_or_name wss args.number args.name
  let focused ← (focused_workspace wss).elim (.error .NoFocusedWorkspace) .ok
  -- If the target workspace already exists
  match target with
  | some target =>
    -- If the target is already focused and --no-auto-back-and-forth was passed, abort here
    if target.num == focused.num && target.name == focused.name
        && args.no_auto_back_and_forth then
      return []
    -- Just focus the target workspace.
    let c ← Connection.workspace args.number args.name
    return [c]
  | none =>
  -- If workspace is not given by a number, just select the workspace
  match args.number with
  | none => return [.workspaceName (args.name.getD "")]
  | some number =>
  let focused_name := focused.name
  -- Find out on which output the numbered workspace should be shown
  match mapping.find? (fun p => p.2.contains number) with
  | some (output_str, _) =>
    let focusedOut ← (focused_output outs).elim (.error .NoFocusedOutput) .ok
    if focusedOut.name == output_str then
      -- We are on the correct output already, just select workspace
      let c ← Connection.workspace args.number args.name
      return [c]
    -- 1. focus the desired output
    -- 2. select the desired workspace
    -- 3. select the initially focused workspace
    -- 4. select the desired workspace
    let c ← Connection.workspace args.number args.name
    return [.focusOutput output_str, c, .workspaceName focused_name, c]
  | none =>
    -- We could not find the desired output, just select it
    let c ← Connection.workspace args.number args.name
    return [c]

/-! ## Move operation (`ws_move`, src/bin/ws.rs 187–354)

The live body of `ws_move` is only its first two statements: it issues
`move_to_workspace` and then hits an unconditional `return Ok(())`
(ws.rs 188–190).  Everything after that early return — the
no-auto-back-and-forth check, the marking, the single-window detection
and the relocation lookup — is unreachable code. -/

/-- Arguments of the `move` subcommand. -/
structure MoveArgs where
  no_auto_back_and_forth : Bool
  number : Option Int
  name : Option String
deriving Repr

/-- Rust `ws_move` (ws.rs 187–190, the reachable part): issue the single
`move to workspace` command and return. -/
def ws_move (args : MoveArgs) : Except Error (List Cmd) := do
  let c ← Connection.move_to_workspace args.number args.name
  return [c]

/-! ## Tree query (`Connection::get_workspace_with_mark`, ws.rs 527–545) -/

/-- A window node of the tree (third nesting level): only its marks are
inspected. -/
structure WindowNode where
  marks : List String
deriving Repr

/-- A workspace node of the tree (second nesting level). -/
structure WsNode where
  num : Option Int
  name : Option String
  nodes : List WindowNode
deriving Repr

/-- An output node of the tree (first nesting level). -/
structure OutNode where
  name : Option String
  nodes : List WsNode
deriving Repr

/-- The tree returned by `get_tree`. -/
structure Tree where
  nodes : List OutNode
deriving Repr

/-- The body of `get_workspace_with_mark` for one workspace node under
one output node: if some window carries the mark, extract
`(num, name, window count, output name)`, erring with `UnexpectedTree`
when number, name or output name is missing. -/
def workspaceWithMarkHere (mark : String) (output : OutNode) (workspace : WsNode) :
    Option (Except Error (Int × String × Nat × String)) :=
  if workspace.nodes.any (fun w => w.marks.any (· == mark)) then
    some (do
      let ws_num ← workspace.num.elim (.error .UnexpectedTree) .ok
      let ws_name ← workspace.name.elim (.error .UnexpectedTree) .ok
      let output_name ← output.name.elim (.error .UnexpectedTree) .ok
      return (ws_num, ws_name, workspace.nodes.length, output_name))
  else none

/-- Rust `Connection::get_workspace_with_mark` (ws.rs 527–545): scan the tree
for the window bearing the mark; return its workspace's number, name,
window count and owning output, or `MarkNotFound`. -/
def get_workspace_with_mark (tree : Tree) (mark : String) :
    Except Error (Int × String × Nat × String) :=
  match tree.nodes.findSome? (fun output =>
      output.nodes.findSome? (fun workspace =>
        workspaceWithMarkHere mark output workspace)) with
  | some r => r
  | none => .error .MarkNotFound

/-! ## Map operation (`ws_map`, src/bin/ws.rs 356–377)

`Sway::new` (ws.rs 549–565) initialises `mapping: HashMap::new()` and
`ws_map` never calls `load_mapping`, so the in-memory mapping that
`save_mapping` (ws.rs 583–587) writes out contains exactly the entries
inserted by this invocation. -/

/-- The output resolution of `ws_map` (ws.rs 360–362): first output
matching the token's output part by name or by `make model serial`
descriptor. -/
def resolveOutput (outs : List Output) (output_str : String) : Option Output :=
  outs.find? (fun o =>
    o.name == output_str || output_str == o.make ++ " " ++ o.model ++ " " ++ o.serial)

/-- The token loop body of `ws_map` (ws.rs 358–366). -/
def wsMapStep (outs : List Output) (mapping : Mapping) (p : String × List Int) :
    Mapping :=
  match resolveOutput outs p.1 with
  | some output => insertMapping mapping output.name p.2
  | none => mapping

/-- Rust `ws_map` (ws.rs 356–377): starting from the empty in-memory mapping
of `Sway::new`, resolve each `output:workspaces` token against the
output snapshot and insert the resolved entries; the result is what
`save_mapping` persists, replacing the whole mapping file. -/
def ws_map (outs : List Output) (maps : List (String × List Int)) : Mapping :=
  maps.foldl (wsMapStep outs) []

/-! ## JSON model (serde_json values)

The mapping and previous-workspace files are written with
`serde_json::to_string` and read with `serde_json::from_str`.  Modelled
from the spec at the level of JSON values: the mapping file is a JSON
object with output-name keys and arrays of numbers as values (§6), the
previous-workspace file a two-element `[name, num]` array. -/

/-- JSON values (the fragment these files use). -/
inductive Json where
  | str (s : String)
  | int (n : Int)
  | arr (l : List Json)
  | obj (l : List (String × Json))
deriving Repr

/-- Serialisation of `HashMap<String, Vec<i32>>` to a JSON value
(`serde_json::to_string` in `Sway::save_mapping`, ws.rs 583–587). -/
def mappingToJson (m : Mapping) : Json :=
  .obj (m.map (fun p => (p.1, .arr (p.2.map .int))))

/-- Deserialisation of a JSON value as a `Vec<i32>`. -/
def jsonToInts : Json → Option (List Int)
  | .arr l => l.mapM (fun j => match j with | .int n => some n | _ => none)
  | _ => none

/-- Deserialisation of a JSON value as a `HashMap<String, Vec<i32>>`
(`serde_json::from_str` in `Sway::load_mapping`, ws.rs 577–581). -/
def jsonToMapping : Json → Option Mapping
  | .obj l => l.mapM (fun p => (jsonToInts p.2).map (fun v => (p.1, v)))
  | _ => none

/-! ## Monitor daemon (`ws_monitor`, src/bin/ws.rs 379–402) -/

/-- The `old` workspace snapshot carried by a workspace-change event
(swayipc event nodes have optional `num` and `name`). -/
structure EventWorkspace where
  num : Option Int
  name : Option String
deriving Repr

/-- A workspace-change event: optional `old` workspace. -/
structure WorkspaceEvent where
  old : Option EventWorkspace
deriving Repr

/-- One event as delivered by the subscription stream:
`Some(Ok(Event::Workspace _))`, some other event kind, or an error. -/
inductive StreamItem where
  | workspaceEvent (ev : WorkspaceEvent)
  | otherEvent
  | streamError
deriving Repr

/-- Rust `serde_json::to_string(&(name, num))`: the previous-workspace record
as the two-element JSON array `[name, num]` (spec §6). -/
def serializePrevious (name : String) (num : Int) : Json :=
  .arr [.str name, .int num]

/-- One iteration of the `ws_monitor` loop body (ws.rs 388–401) on the
previous-workspace file: if the item is a workspace event whose `old`
workspace has both a number and a name, overwrite the file with the
serialised `(name, num)` pair; otherwise leave the file untouched. -/
def monitorStep (item : StreamItem) (file : Option Json) : Option Json :=
  match item with
  | .workspaceEvent ev =>
    match ev.old with
    | some old =>
      match old.num with
      | some num =>
        match old.name with
        | some name => some (serializePrevious name num)
        | none => file
      | none => file
    | none => file
  | _ => file

/-! ## lib.rs snapshot accessors (src/lib.rs 125–149)

These take the raw `get_workspaces()` result (`Result` in the source,
`Except` here) and collapse failure with `unwrap_or_default()`. -/

/-- An opaque swayipc transport error. -/
inductive SwayIpcError where
  | err (msg : String)
deriving DecidableEq, Repr

/-- Rust `Result::unwrap_or_default` for lists. -/
def unwrapOrDefault (r : Except SwayIpcError (List Workspace)) : List Workspace :=
  match r with
  | .ok l => l
  | .error _ => []

/-- Rust `workspace_exists` (lib.rs 125–130): whether some workspace of the
`get_workspaces()` result has the given number, with failures collapsed
to the empty list by `unwrap_or_default()`. -/
def workspace_exists (query : Except SwayIpcError (List Workspace))
    (workspace_num : Int) : Bool :=
  (unwrapOrDefault query).any (fun workspace => workspace.num == workspace_num)

/-- Rust `get_focused_workspace` (lib.rs 144–149): first focused workspace of
the `get_workspaces()` result, with failures collapsed to the empty list
by `unwrap_or_default()`. -/
def get_focused_workspace (query : Except SwayIpcError (List Workspace)) :
    Option Workspace :=
  (unwrapOrDefault query).find? (fun workspace => workspace.focused)

/-- The memoised workspace field of `Sway` (ws.rs 430–437). -/
structure SwayCache where
  workspaces : Option (List Workspace)
deriving Repr

/-- Rust `Sway::update_workspaces` (ws.rs 619–624): fetch and cache the
workspace list on first access, propagating a query failure with `?`;
on later accesses leave the cache untouched without querying. -/
def update_workspaces (st : SwayCache)
    (query : Except Error (List Workspace)) : Except Error SwayCache :=
  match st.workspaces with
  | none =>
    match query with
    | .ok wss => .ok ⟨some wss⟩
    | .error e => .error e
  | some _ => .ok st

/-! ## Bulk reassignment (`move_workspaces`,
src/bin/workspaces-to-outputs.rs 29–83)

This binary issues raw `run_command` payload strings; `mappings`
(`HashMap<String, Vec<i32>>`) is again an association list, whose order
stands in for the hash map's iteration order. -/

/-- The compound correction/fill payload
`workspace --no-auto-back-and-forth number {num}, move workspace to
output '{output}'` (workspaces-to-outputs.rs 58–61 and 74). -/
def selectAndMoveCmd (num : Int) (output : String) : String :=
  s!"workspace --no-auto-back-and-forth number {num}, move workspace to output '{output}'"

/-- The focus-restoration payload
`workspace --no-auto-back-and-forth number {ws}`
(workspaces-to-outputs.rs 80). -/
def refocusCmd (ws : Int) : String :=
  s!"workspace --no-auto-back-and-forth number {ws}"

/-- The inner mapping loop of `move_workspaces` for one workspace
(workspaces-to-outputs.rs 43–63): for each mapping entry claiming the
workspace's number, remove the output from the empty set; `break` if the
workspace already sits on it, otherwise issue the select-and-move
command and keep scanning.  Returns the issued commands and the outputs
removed from the empty set, in order. -/
def innerPass (ws : Workspace) : List (String × List Int) → List String × List String
  | [] => ([], [])
  | (output, workspaces) :: rest =>
    if workspaces.contains ws.num then
      if ws.output == output then ([], [output])
      else
        let p := innerPass ws rest
        (selectAndMoveCmd ws.num output :: p.1, output :: p.2)
    else innerPass ws rest

/-- One iteration of the outer workspace loop of `move_workspaces`
(workspaces-to-outputs.rs 37–64), accumulating the issued commands, the
outputs removed from the empty set, and the focused workspace. -/
def outerStep (mappings : List (String × List Int))
    (acc : List String × List String × Option Int) (ws : Workspace) :
    List String × List String × Option Int :=
  let focused_ws := if ws.focused then some ws.num else acc.2.2
  let p := innerPass ws mappings
  (acc.1 ++ p.1, acc.2.1 ++ p.2, focused_ws)

/-- Rust `move_workspaces` (workspaces-to-outputs.rs 29–83): one fold over the
current workspaces performing the per-workspace corrections and tracking
the focused workspace and the outputs that received one, then the
fill-empty-outputs loop, then focus restoration. -/
def move_workspaces (mappings : List (String × List Int)) (wss : List Workspace) :
    List String :=
  let acc := wss.foldl (outerStep mappings) ([], [], none)
  let empty_outputs := (mappings.map Prod.fst).filter (fun o => !acc.2.1.contains o)
  let fills := empty_outputs.filterMap (fun output =>
    ((lookupMapping mappings output).bind List.head?).map (selectAndMoveCmd · output))
  acc.1 ++ fills ++ (acc.2.2.map refocusCmd).toList

/-! Specification-side decomposition of `move_workspaces` into its three
phases, for the phase-ordering theorem. -/

/-- Phase 1 commands: the per-workspace corrections, in workspace order. -/
def correctionCmds (mappings : List (String × List Int)) (wss : List Workspace) :
    List String :=
  wss.flatMap (fun ws => (innerPass ws mappings).1)

/-- The outputs that received a workspace during phase 1 (removed from
the empty set), in order. -/
def receivedOutputs (mappings : List (String × List Int)) (wss : List Workspace) :
    List String :=
  wss.flatMap (fun ws => (innerPass ws mappings).2)

/-- The workspace number focused before the pass, as `move_workspaces`
tracks it: the number of the last workspace flagged focused. -/
def focusedBefore (wss : List Workspace) : Option Int :=
  wss.foldl (fun acc ws => if ws.focused then some ws.num else acc) none

/-- Phase 2 commands: for each declared output that received no
workspace, move its first declared workspace number onto it. -/
def fillCmds (mappings : List (String × List Int)) (wss : List Workspace) :
    List String :=
  ((mappings.map Prod.fst).filter
      (fun o => !(receivedOutputs mappings wss).contains o)).filterMap
    (fun output =>
      ((lookupMapping mappings output).bind List.head?).map (selectAndMoveCmd · output))

/-- Phase 3 commands: restore focus to the previously focused workspace,
if any. -/
def restoreCmds (wss : List Workspace) : List String :=
  ((focusedBefore wss).map refocusCmd).toList

/-! ## Compositor focus semantics

Modelled from the spec (§6, Glossary): each `workspace …` command focuses
(creating if needed) the designated workspace, so the workspace focused
after a command sequence is the target of its last `workspace` command;
`focus output` and container moves do not retarget the focused
workspace designation. -/

/-- The workspace designation a command switches focus to, if any. -/
def cmdFocusTarget : Cmd → Option (Option Int × Option String)
  | .workspaceNumName num name => some (some num, some name)
  | .workspaceNum num => some (some num, none)
  | .workspaceName name => some (none, some name)
  | _ => none

/-- The workspace designation focused after executing the command list:
the target of the last focus-switching command. -/
def finalFocus (cmds : List Cmd) : Option (Option Int × Option String) :=
  (cmds.filterMap cmdFocusTarget).getLast?

/-! ## Helper lemmas -/

/-- The function `dedup` keeps the head of a non-empty list. -/
theorem dedup_head? : ∀ (x : Int) (xs : List Int), (dedup (x :: xs)).head? = some x
  | _, [] => rfl
  | x, b :: rest => by
    by_cases h : x = b
    · rw [show dedup (x :: b :: rest) = dedup (b :: rest) by simp [dedup, h], h]
      exact dedup_head? b rest
    · simp [dedup, h]

/-- Deduplicating a `≤`-sorted list yields a strictly ascending list. -/
theorem chain'_lt_dedup : ∀ l : List Int, l.Sorted (· ≤ ·) → (dedup l).Chain' (· < ·)
  | [], _ => by simp [dedup]
  | [_], _ => by simp [dedup]
  | a :: b :: rest, h => by
    have hab : a ≤ b := (List.sorted_cons.mp h).1 b (by simp)
    have htail : (b :: rest).Sorted (· ≤ ·) := (List.sorted_cons.mp h).2
    by_cases heq : a = b
    · rw [show dedup (a :: b :: rest) = dedup (b :: rest) by simp [dedup, heq]]
      exact chain'_lt_dedup (b :: rest) htail
    · rw [show dedup (a :: b :: rest) = a :: dedup (b :: rest) by simp [dedup, heq]]
      rw [List.chain'_cons']
      refine ⟨fun y hy => ?_, chain'_lt_dedup (b :: rest) htail⟩
      rw [dedup_head?] at hy
      cases hy
      exact lt_of_le_of_ne hab heq

/-! ## Claim theorems -/

/-- C3: for every valid `output:spec` mapping token, `map_validator`
yields a sorted, de-duplicated ascending number list; a single integer
yields a singleton, `"5,2,2"` yields `[2,5]`, and the inclusive ranges
`"1-3"` and `"3-1"` both yield `[1,2,3]`. -/
theorem mapValidator_sorted_dedup_ascending (s out : String) (l : List Int)
    (h : mapValidator s = .ok (out, l)) :
    l.Chain' (· < ·) ∧
    mapValidator "VGA-1:7" = .ok ("VGA-1", [7]) ∧
    mapValidator "VGA-1:5,2,2" = .ok ("VGA-1", [2, 5]) ∧
    mapValidator "VGA-1:1-3" = .ok ("VGA-1", [1, 2, 3]) ∧
    mapValidator "VGA-1:3-1" = .ok ("VGA-1", [1, 2, 3]) := by
  refine ⟨?_, by rfl, by rfl, by rfl, by rfl⟩
  unfold mapValidator at h
  cases hsp : splitOnce s ':' with
  | none => rw [hsp] at h; exact absurd h (by simp)
  | some p =>
    obtain ⟨o, wsStr⟩ := p
    rw [hsp] at h
    dsimp only at h
    cases hc : collectParts (splitChar wsStr ',') with
    | error e => rw [hc] at h; exact absurd h (by simp)
    | ok ws =>
      rw [hc] at h
      have hl : l = dedup (ws.insertionSort (· ≤ ·)) := by
        cases h; rfl
      rw [hl]
      exact chain'_lt_dedup _ (List.sorted_insertionSort _ ws)

/-- Witness for C3 at the concrete token `"HDMI-A-1:9,4"`. -/
theorem mapValidator_sorted_dedup_ascending_witness :
    ([4, 9] : List Int).Chain' (· < ·) ∧
    mapValidator "VGA-1:5,2,2" = .ok ("VGA-1", [2, 5]) :=
  ⟨(mapValidator_sorted_dedup_ascending "HDMI-A-1:9,4" "HDMI-A-1" [4, 9] (by rfl)).1,
   (mapValidator_sorted_dedup_ascending "HDMI-A-1:9,4" "HDMI-A-1" [4, 9] (by rfl)).2.2.1⟩

/-- C4: when a workspace matching the target exists and is the currently
focused workspace and `no_auto_back_and_forth` is set, the focus
operation succeeds issuing zero commands. -/
theorem ws_focus_focused_target_noop (wss : List Workspace) (outs : List Output)
    (mapping : Mapping) (args : FocusArgs) (w : Workspace)
    (ht : workspace_by_num_or_name wss args.number args.name = some w)
    (hf : focused_workspace wss = some w)
    (hb : args.no_auto_back_and_forth = true) :
    ws_focus wss outs mapping args = .ok [] := by
  obtain ⟨b, num, name⟩ := args
  dsimp only at ht hf hb ⊢
  subst hb
  unfold ws_focus
  rw [hf, ht]
  simp [Bind.bind, Except.bind, Pure.pure, Except.pure]

/-- Witness for C4: workspace 2 exists, is focused, and is requested with
`--no-auto-back-and-forth`. -/
theorem ws_focus_focused_target_noop_witness :
    ws_focus [⟨2, "2", "A", true⟩] [] [] ⟨true, some 2, none⟩ = .ok [] :=
  ws_focus_focused_target_noop [⟨2, "2", "A", true⟩] [] [] ⟨true, some 2, none⟩
    ⟨2, "2", "A", true⟩ (by rfl) (by rfl) (by rfl)

/-- C1: a focus request for a non-existing numbered workspace whose
number is claimed by output `O` in the mapping, while a different output
is focused, issues exactly the four commands (focus output `O`, focus
target, focus originally-focused workspace by name, focus target again),
and afterwards the target workspace is the focused one. -/
theorem ws_focus_four_command_correction (wss : List Workspace)
    (outs : List Output) (mapping : Mapping) (args : FocusArgs) (n : Int)
    (f : Workspace) (O : String) (claimed : List Int) (fo : Output)
    (hn : args.number = some n)
    (htarget : workspace_by_num_or_name wss args.number args.name = none)
    (hfocused : focused_workspace wss = some f)
    (hclaim : mapping.find? (fun p => p.2.contains n) = some (O, claimed))
    (hfo : focused_output outs = some fo)
    (hdiff : fo.name ≠ O) :
    ∃ c, Connection.workspace args.number args.name = .ok c ∧
      ws_focus wss outs mapping args =
        .ok [.focusOutput O, c, .workspaceName f.name, c] ∧
      finalFocus [.focusOutput O, c, .workspaceName f.name, c] =
        some (some n, args.name) := by
  obtain ⟨b, num, name⟩ := args
  dsimp only at hn htarget hfocused ⊢
  subst hn
  have hne : (fo.name == O) = false := by
    simpa using hdiff
  simp at hclaim
  cases hname : name with
  | none =>
    subst hname
    refine ⟨.workspaceNum n, by rfl, ?_, by rfl⟩
    simp [ws_focus, hfocused, htarget, hfo, hne, hclaim, Connection.workspace,
      Bind.bind, Except.bind, Pure.pure, Except.pure]
  | some nm =>
    subst hname
    refine ⟨.workspaceNumName n nm, by rfl, ?_, by rfl⟩
    simp [ws_focus, hfocused, htarget, hfo, hne, hclaim, Connection.workspace,
      Bind.bind, Except.bind, Pure.pure, Except.pure]

/-- Witness for C1: workspace 5 does not exist, `B` claims number 5, `A`
is focused; the four-command corrective sequence is issued and ends
focused on workspace number 5. -/
theorem ws_focus_four_command_correction_witness :
    ∃ c, Connection.workspace (some 5) none = .ok c ∧
      ws_focus [⟨1, "1", "A", true⟩] [⟨"A", "", "", "", true⟩, ⟨"B", "", "", "", false⟩]
          [("B", [5])] ⟨false, some 5, none⟩ =
        .ok [.focusOutput "B", c, .workspaceName "1", c] ∧
      finalFocus [.focusOutput "B", c, .workspaceName "1", c] =
        some (some 5, none) :=
  ws_focus_four_command_correction [⟨1, "1", "A", true⟩]
    [⟨"A", "", "", "", true⟩, ⟨"B", "", "", "", false⟩] [("B", [5])]
    ⟨false, some 5, none⟩ 5 ⟨1, "1", "A", true⟩ "B" [5] ⟨"A", "", "", "", true⟩
    (by rfl) (by rfl) (by rfl) (by rfl) (by rfl) (by decide)

/-- C10: `Connection::workspace` and `Connection::move_to_workspace`
fail with `NeitherNumNorNameProvided` (building no command) exactly when
both `num` and `name` are absent; with at least one present a command is
built and no such error is returned. -/
theorem connection_requires_num_or_name :
    Connection.workspace none none = .error .NeitherNumNorNameProvided ∧
    Connection.move_to_workspace none none = .error .NeitherNumNorNameProvided ∧
    ∀ (num : Option Int) (name : Option String), num.isSome ∨ name.isSome →
      (∃ c, Connection.workspace num name = .ok c) ∧
      (∃ c, Connection.move_to_workspace num name = .ok c) := by
  refine ⟨rfl, rfl, fun num name h => ?_⟩
  cases num with
  | some n =>
    cases name with
    | some nm => exact ⟨⟨_, rfl⟩, ⟨_, rfl⟩⟩
    | none => exact ⟨⟨_, rfl⟩, ⟨_, rfl⟩⟩
  | none =>
    cases name with
    | some nm => exact ⟨⟨_, rfl⟩, ⟨_, rfl⟩⟩
    | none => simp at h

/-- Witness for C10 at `num = some 3`, `name = none`. -/
theorem connection_requires_num_or_name_witness :
    ((some (3 : Int)).isSome ∨ (none : Option String).isSome) ∧
    (∃ c, Connection.workspace (some 3) none = .ok c) ∧
    (∃ c, Connection.move_to_workspace (some 3) none = .ok c) :=
  ⟨Or.inl rfl,
   (connection_requires_num_or_name.2.2 (some 3) none (Or.inl rfl)).1,
   (connection_requires_num_or_name.2.2 (some 3) none (Or.inl rfl)).2⟩

/-- C2 (code bug): `ws_move` returns immediately after issuing the
single `move to workspace` command (the unconditional `return Ok(())` at
ws.rs 190), so the single-window detection never runs and no successful
move ever issues a relocation (`move workspace to output`) or
output-focus command. -/
theorem ws_move_never_relocates :
    ws_move ⟨false, some 5, none⟩ = .ok [.moveToWorkspaceNum 5] ∧
    ∀ (args : MoveArgs) (cmds : List Cmd), ws_move args = .ok cmds →
      ∀ o : String, Cmd.moveWorkspaceToOutput o ∉ cmds ∧ Cmd.focusOutput o ∉ cmds := by
  refine ⟨rfl, fun args cmds h o => ?_⟩
  obtain ⟨b, num, name⟩ := args
  cases num with
  | some n =>
    cases name with
    | some nm =>
      simp [ws_move, Connection.move_to_workspace, Bind.bind, Except.bind,
        Pure.pure, Except.pure] at h
      simp [← h]
    | none =>
      simp [ws_move, Connection.move_to_workspace, Bind.bind, Except.bind,
        Pure.pure, Except.pure] at h
      simp [← h]
  | none =>
    cases name with
    | some nm =>
      simp [ws_move, Connection.move_to_workspace, Bind.bind, Except.bind,
        Pure.pure, Except.pure] at h
      simp [← h]
    | none =>
      simp [ws_move, Connection.move_to_workspace, Bind.bind, Except.bind,
        Pure.pure, Except.pure] at h

/-- Witness for C2's theorem at the failing input (`move` to workspace
number 5). -/
theorem ws_move_never_relocates_witness :
    Cmd.moveWorkspaceToOutput "DP-1" ∉ [Cmd.moveToWorkspaceNum 5] ∧
    Cmd.focusOutput "DP-1" ∉ [Cmd.moveToWorkspaceNum 5] :=
  ws_move_never_relocates.2 ⟨false, some 5, none⟩ [.moveToWorkspaceNum 5]
    ws_move_never_relocates.1 "DP-1"

/-- C7 (counterexample): the lib.rs accessors return the "not found"
result on a failed query instead of propagating it —
`workspace_exists` answers `false` and `get_focused_workspace` answers
`none` when `get_workspaces()` fails. -/
theorem accessors_swallow_query_failure :
    workspace_exists (.error (.err "ipc failure")) 1 = false ∧
    get_focused_workspace (.error (.err "ipc failure")) = none :=
  ⟨rfl, rfl⟩

/-- C7 (amended): `Sway::update_workspaces` propagates a failed query
(and caches a successful one), while the lib.rs accessors
`workspace_exists` and `get_focused_workspace` collapse a failed query
to the empty workspace list, answering `false`/`none`. -/
theorem snapshot_query_failure_behaviour (st : SwayCache)
    (h : st.workspaces = none) :
    (∀ e : Error, update_workspaces st (.error e) = .error e) ∧
    (∀ wss : List Workspace, update_workspaces st (.ok wss) = .ok ⟨some wss⟩) ∧
    (∀ (e : SwayIpcError) (n : Int), workspace_exists (.error e) n = false) ∧
    (∀ e : SwayIpcError, get_focused_workspace (.error e) = none) := by
  refine ⟨fun e => ?_, fun wss => ?_, fun e n => rfl, fun e => rfl⟩
  · simp [update_workspaces, h]
  · simp [update_workspaces, h]

/-- Witness for C7's amended theorem on the empty cache. -/
theorem snapshot_query_failure_behaviour_witness :
    update_workspaces ⟨none⟩ (.error .NoWorkspaces) = .error .NoWorkspaces ∧
    workspace_exists (.error (.err "e")) 2 = false :=
  ⟨(snapshot_query_failure_behaviour ⟨none⟩ rfl).1 .NoWorkspaces,
   (snapshot_query_failure_behaviour ⟨none⟩ rfl).2.2.1 (.err "e") 2⟩

/-- C8: one monitor-loop iteration overwrites the previous-workspace
file with the serialised `(name, num)` pair exactly when the item is a
workspace event whose `old` workspace carries both a number and a name;
any other item leaves the file unchanged. -/
theorem monitorStep_writes_iff (item : StreamItem) (file : Option Json) :
    (∃ ev old num name, item = .workspaceEvent ev ∧ ev.old = some old ∧
      old.num = some num ∧ old.name = some name ∧
      monitorStep item file = some (serializePrevious name num)) ∨
    (monitorStep item file = file ∧
      ∀ ev old num name, item = .workspaceEvent ev → ev.old = some old →
        old.num = some num → old.name = some name → False) := by
  cases item with
  | workspaceEvent ev =>
    cases hold : ev.old with
    | none =>
      refine Or.inr ⟨by simp [monitorStep, hold], ?_⟩
      intro ev' old num name heq h
      injection heq with heq; subst heq
      rw [hold] at h; cases h
    | some old =>
      cases hnum : old.num with
      | none =>
        refine Or.inr ⟨by simp [monitorStep, hold, hnum], ?_⟩
        intro ev' old' num name heq h hn
        injection heq with heq; subst heq
        rw [hold] at h; cases h
        rw [hnum] at hn; cases hn
      | some num =>
        cases hname : old.name with
        | none =>
          refine Or.inr ⟨by simp [monitorStep, hold, hnum, hname], ?_⟩
          intro ev' old' num' name heq h hn hm
          injection heq with heq; subst heq
          rw [hold] at h; cases h
          rw [hname] at hm; cases hm
        | some name =>
          exact Or.inl ⟨ev, old, num, name, rfl, hold, hnum, hname,
            by simp [monitorStep, hold, hnum, hname]⟩
  | otherEvent => exact Or.inr ⟨rfl, by rintro ev old num name h; cases h⟩
  | streamError => exact Or.inr ⟨rfl, by rintro ev old num name h; cases h⟩

/-- Witness for C8 at a complete workspace event over an empty file. -/
theorem monitorStep_writes_iff_witness :
    (∃ ev old num name,
      StreamItem.workspaceEvent ⟨some ⟨some 3, some "3:web"⟩⟩ = .workspaceEvent ev ∧
      ev.old = some old ∧ old.num = some num ∧ old.name = some name ∧
      monitorStep (.workspaceEvent ⟨some ⟨some 3, some "3:web"⟩⟩) none =
        some (serializePrevious name num)) ∨
    (monitorStep (.workspaceEvent ⟨some ⟨some 3, some "3:web"⟩⟩) none = none ∧
      ∀ ev old num name,
        StreamItem.workspaceEvent ⟨some ⟨some 3, some "3:web"⟩⟩ = .workspaceEvent ev →
        ev.old = some old → old.num = some num → old.name = some name → False) :=
  monitorStep_writes_iff (.workspaceEvent ⟨some ⟨some 3, some "3:web"⟩⟩) none

/-- Decoding an encoded `i32` list restores it. -/
theorem jsonToInts_map_int (v : List Int) : jsonToInts (.arr (v.map .int)) = some v := by
  induction v with
  | nil => rfl
  | cons a rest ih =>
    simp only [jsonToInts, List.map_cons, List.mapM_cons] at ih ⊢
    rw [ih]
    rfl

/-- C9: saving a mapping as its JSON value and loading it back
reproduces an equal structure: the same output keys, each bound to the
same workspace-number list. -/
theorem mapping_save_load_roundtrip (m : Mapping) :
    jsonToMapping (mappingToJson m) = some m := by
  induction m with
  | nil => rfl
  | cons p rest ih =>
    simp only [mappingToJson, jsonToMapping, List.map_cons, List.mapM_cons] at ih ⊢
    rw [jsonToInts_map_int]
    rw [ih]
    rfl

/-- A key has a binding in a mapping iff some entry carries it. -/
theorem lookupMapping_ne_none_iff (m : Mapping) (key : String) :
    lookupMapping m key ≠ none ↔ ∃ p ∈ m, p.1 = key := by
  simp [lookupMapping, Option.ne_none_iff_isSome, List.find?_isSome]

/-- A key bound after `insertMapping` is the inserted key or was bound
before. -/
theorem lookupMapping_insertMapping (m : Mapping) (k : String) (v : List Int)
    (key : String) (h : lookupMapping (insertMapping m k v) key ≠ none) :
    key = k ∨ lookupMapping m key ≠ none := by
  rw [lookupMapping_ne_none_iff] at h
  rw [lookupMapping_ne_none_iff]
  obtain ⟨q, hq, hkey⟩ := h
  unfold insertMapping at hq
  by_cases hany : m.any (fun p => p.1 == k)
  · rw [if_pos hany] at hq
    rw [List.mem_map] at hq
    obtain ⟨p, hp, hfp⟩ := hq
    by_cases hpk : (p.1 == k) = true
    · rw [if_pos hpk] at hfp
      subst hfp
      exact Or.inl hkey.symm
    · rw [if_neg hpk] at hfp
      subst hfp
      exact Or.inr ⟨p, hp, hkey⟩
  · rw [if_neg hany] at hq
    rw [List.mem_append] at hq
    cases hq with
    | inl hq => exact Or.inr ⟨q, hq, hkey⟩
    | inr hq =>
      simp only [List.mem_singleton] at hq
      subst hq
      exact Or.inl hkey.symm

/-- Every key bound after folding `ws_map`'s token loop from `m0` was
bound in `m0` or is the resolved name of some processed token. -/
theorem ws_map_foldl_keys (outs : List Output) :
    ∀ (maps : List (String × List Int)) (m0 : Mapping) (key : String),
      lookupMapping (maps.foldl (wsMapStep outs) m0) key ≠ none →
      lookupMapping m0 key ≠ none ∨
        ∃ p ∈ maps, ∃ o, resolveOutput outs p.1 = some o ∧ o.name = key
  | [], m0, key, h => Or.inl h
  | p :: rest, m0, key, h => by
    rw [List.foldl_cons] at h
    cases ws_map_foldl_keys outs rest (wsMapStep outs m0 p) key h with
    | inr hrest =>
      obtain ⟨q, hq, o, ho, hname⟩ := hrest
      exact Or.inr ⟨q, List.mem_cons_of_mem _ hq, o, ho, hname⟩
    | inl hstep =>
      unfold wsMapStep at hstep
      cases hres : resolveOutput outs p.1 with
      | none => rw [hres] at hstep; exact Or.inl hstep
      | some o =>
        rw [hres] at hstep
        cases lookupMapping_insertMapping m0 o.name p.2 key hstep with
        | inl heq =>
          exact Or.inr ⟨p, List.mem_cons_self _ _, o, hres, heq.symm⟩
        | inr hm0 => exact Or.inl hm0

/-- C6 (counterexample): with `{B: [3]}` persisted, a `map` invocation
naming only output `A` (which resolves) saves a mapping in which `B` has
no entry at all — the prior persisted entry for the unnamed output `B`
does not remain. -/
theorem ws_map_discards_unnamed_outputs :
    lookupMapping [("B", [3])] "B" = some [3] ∧
    (∀ p ∈ [("A", [1])], p.1 ≠ "B") ∧
    ws_map [⟨"A", "", "", "", false⟩] [("A", [1])] = [("A", [1])] ∧
    lookupMapping (ws_map [⟨"A", "", "", "", false⟩] [("A", [1])]) "B" = none := by
  refine ⟨rfl, ?_, rfl, rfl⟩
  intro p hp
  simp only [List.mem_singleton] at hp
  subst hp
  decide

/-- C6 (amended): the mapping `ws_map` hands to `save_mapping` contains
exactly entries for outputs resolved from this invocation's tokens — it
starts from the empty in-memory mapping, so persisted entries of outputs
not named in the invocation are discarded rather than preserved. -/
theorem ws_map_saves_only_resolved_entries (outs : List Output)
    (maps : List (String × List Int)) (key : String)
    (h : lookupMapping (ws_map outs maps) key ≠ none) :
    ∃ p ∈ maps, ∃ o, resolveOutput outs p.1 = some o ∧ o.name = key := by
  cases ws_map_foldl_keys outs maps [] key h with
  | inl habs => exact absurd rfl habs
  | inr hres => exact hres

/-- Witness for C6's amended theorem: the invocation names `A`, and the
saved entry for key `A` indeed comes from the resolved token. -/
theorem ws_map_saves_only_resolved_entries_witness :
    ∃ p ∈ [("A", ([1] : List Int))], ∃ o,
      resolveOutput [⟨"A", "", "", "", false⟩] p.1 = some o ∧ o.name = "A" :=
  ws_map_saves_only_resolved_entries [⟨"A", "", "", "", false⟩]
    [("A", ([1] : List Int))] "A" (by decide)

/-- The outer loop of `move_workspaces` from any accumulator splits into
per-component concatenations. -/
theorem foldl_outerStep (mappings : List (String × List Int)) :
    ∀ (wss : List Workspace) (c0 r0 : List String) (f0 : Option Int),
      wss.foldl (outerStep mappings) (c0, r0, f0) =
        (c0 ++ correctionCmds mappings wss, r0 ++ receivedOutputs mappings wss,
         wss.foldl (fun acc ws => if ws.focused then some ws.num else acc) f0)
  | [], c0, r0, f0 => by simp [correctionCmds, receivedOutputs]
  | ws :: rest, c0, r0, f0 => by
    rw [List.foldl_cons, List.foldl_cons]
    rw [show outerStep mappings (c0, r0, f0) ws =
      (c0 ++ (innerPass ws mappings).1, r0 ++ (innerPass ws mappings).2,
        if ws.focused then some ws.num else f0) from rfl]
    rw [foldl_outerStep mappings rest]
    simp [correctionCmds, receivedOutputs, List.append_assoc]

/-- Phase decomposition: `move_workspaces` issues its commands in three ordered phases: the
per-workspace corrections, then the fill-empty-outputs commands, then
focus restoration. -/
theorem move_workspaces_eq_phases (mappings : List (String × List Int))
    (wss : List Workspace) :
    move_workspaces mappings wss =
      correctionCmds mappings wss ++ fillCmds mappings wss ++ restoreCmds wss := by
  unfold move_workspaces
  rw [foldl_outerStep mappings wss [] [] none]
  simp only [List.nil_append]
  rfl

/-- A workspace whose number is claimed (uniquely) by an output it does
not sit on contributes its correction command to the inner pass. -/
theorem innerPass_mem (ws : Workspace) :
    ∀ (m : List (String × List Int)) (O : String) (claimed : List Int),
      (O, claimed) ∈ m → ws.num ∈ claimed → ws.output ≠ O →
      (∀ p ∈ m, ws.num ∈ p.2 → p.1 = O) →
      selectAndMoveCmd ws.num O ∈ (innerPass ws m).1
  | [], O, claimed, hmem, _, _, _ => absurd hmem (List.not_mem_nil _)
  | (o, l) :: rest, O, claimed, hmem, hnum, hout, huniq => by
    by_cases hcont : l.contains ws.num
    · have ho : o = O := huniq (o, l) (List.mem_cons_self _ _) (by simpa using hcont)
      have hbeq : (ws.output == o) = false := by
        rw [ho]; simpa using hout
      have hhead : (innerPass ws ((o, l) :: rest)).1 =
          selectAndMoveCmd ws.num o :: (innerPass ws rest).1 := by
        simp [innerPass, hbeq, show ws.num ∈ l by simpa using hcont]
      rw [hhead, ho]
      exact List.mem_cons_self _ _
    · have hmem' : (O, claimed) ∈ rest := by
        cases List.mem_cons.mp hmem with
        | inl heq =>
          exfalso
          apply hcont
          obtain ⟨rfl, rfl⟩ : O = o ∧ claimed = l := by
            simpa [Prod.ext_iff] using heq
          simpa using hnum
        | inr h => exact h
      have hrest := innerPass_mem ws rest O claimed hmem' hnum hout
        (fun p hp => huniq p (List.mem_cons_of_mem _ hp))
      have htail : (innerPass ws ((o, l) :: rest)).1 = (innerPass ws rest).1 := by
        simp [innerPass, show ws.num ∉ l by simpa using hcont]
      rw [htail]
      exact hrest

/-- C5: the bulk-reassignment pass issues the per-workspace corrections,
then the fill-empty-outputs commands, then the focus restoration, in that
order; every workspace (uniquely) claimed by an output it does not sit on
gets its correction command; and for mapping `{A:[1,2], B:[3]}` with
workspaces `1@B` (focused) and `3@A` the pass moves 1 to A and 3 to B,
fills nothing, and refocuses workspace 1. -/
theorem move_workspaces_three_phases :
    (∀ (mappings : List (String × List Int)) (wss : List Workspace),
      move_workspaces mappings wss =
        correctionCmds mappings wss ++ fillCmds mappings wss ++ restoreCmds wss) ∧
    (∀ (mappings : List (String × List Int)) (wss : List Workspace)
        (ws : Workspace) (O : String) (claimed : List Int),
      ws ∈ wss → (O, claimed) ∈ mappings → ws.num ∈ claimed → ws.output ≠ O →
      (∀ p ∈ mappings, ws.num ∈ p.2 → p.1 = O) →
      selectAndMoveCmd ws.num O ∈ correctionCmds mappings wss) ∧
    move_workspaces [("A", [1, 2]), ("B", [3])]
        [⟨1, "1", "B", true⟩, ⟨3, "3", "A", false⟩] =
      [selectAndMoveCmd 1 "A", selectAndMoveCmd 3 "B", refocusCmd 1] := by
  refine ⟨move_workspaces_eq_phases, ?_, by rfl⟩
  intro mappings wss ws O claimed hws hmem hnum hout huniq
  unfold correctionCmds
  rw [List.mem_flatMap]
  exact ⟨ws, hws, innerPass_mem ws mappings O claimed hmem hnum hout huniq⟩

/-- Witness for C5 at the concrete scenario of the claim. -/
theorem move_workspaces_three_phases_witness :
    selectAndMoveCmd 1 "A" ∈
      correctionCmds [("A", [1, 2]), ("B", [3])]
        [⟨1, "1", "B", true⟩, ⟨3, "3", "A", false⟩] ∧
    move_workspaces [("A", [1, 2]), ("B", [3])]
        [⟨1, "1", "B", true⟩, ⟨3, "3", "A", false⟩] =
      [selectAndMoveCmd 1 "A", selectAndMoveCmd 3 "B", refocusCmd 1] :=
  ⟨move_workspaces_three_phases.2.1 [("A", [1, 2]), ("B", [3])]
      [⟨1, "1", "B", true⟩, ⟨3, "3", "A", false⟩] ⟨1, "1", "B", true⟩ "A" [1, 2]
      (by decide) (by decide) (by decide) (by decide) (by decide),
   move_workspaces_three_phases.2.2⟩

end Swaytools
